import Mathlib

/-!
# Verification of the pico-dumper-64 bus protocol engine

A shallow embedding of `src/n64.py`: the GPIO pin map, the two 16-bit word
read strategies (software-polled and PIO hardware-timed), the address-latch
sequencing of `set_address`, word-to-byte serialization, the serial dump
session, ROM size resolution, and the checksum database lookup.

Machine words are `Nat` with explicit masking (`% 2^16`, `% 2^32`) where the
hardware or the RP2040 ISR register would truncate.
-/

set_option maxHeartbeats 1000000
set_option maxRecDepth 8000

namespace N64

/-- `pico_pins_map` from n64.py line 14: GPIO number of bus line AD`i` is
`pico_pins_map[i]`.  The low byte is wired in natural order, the high byte
in reversed order (AD8 → GPIO15, …, AD15 → GPIO8). -/
def pico_pins_map : List Nat := [0, 1, 2, 3, 4, 5, 6, 7, 15, 14, 13, 12, 11, 10, 9, 8]

/-- ROM base address, n64.py line 10. -/
def rom_base_address : Nat := 0x10000000

/-- Default `cart_size` global (MB), n64.py line 9. -/
def default_cart_size : Int := 12

/-- A level assignment to the GPIO lines: `L n` is the electrical level of
GPIO `n` (`true` = high). -/
def PinLevels : Type := Nat → Bool

/-- Software-polled word read, `read_word_from_address_pins` (n64.py 145-150):
`word = 0; for i in range(16): word |= address_pins[i].value() << i`.
`address_pins[i]` is GPIO `pico_pins_map[i]`. -/
def read_word_from_address_pins (L : PinLevels) : Nat :=
  (List.range 16).foldl
    (fun word i => word ||| ((if L (pico_pins_map.getD i 0) then 1 else 0) <<< i)) 0

/-- The value sampled by the PIO instruction `in pins, count`: per the RP2040
datasheet, bit `i` of the sampled field is the level of GPIO `base + i`. -/
def pio_pins_value (base : Nat) (count : Nat) (L : PinLevels) : Nat :=
  (List.range count).foldl
    (fun v i => v ||| ((if L (base + i) then 1 else 0) <<< i)) 0

/-- One instruction of the `read_word_pio` PIO micro-program (n64.py 26-54).
`side` is the optional side-set value driven onto the read-enable pin;
`delay` cycles only affect timing, not register state. -/
inductive PioInstr where
  | pull_block : PioInstr
  | mov_x_osr : PioInstr
  | nop : Option Bool → Nat → PioInstr
  | in_pins : Nat → PioInstr
  | push : PioInstr

/-- PIO state-machine registers and FIFOs.  `rdPin` is the level the
side-set drives on the read-enable line (GPIO 19). -/
structure PioState where
  osr : Nat
  isr : Nat
  x : Nat
  rdPin : Bool
  rx : List Nat
  tx : List Nat

/-- Single-instruction semantics of the state machine configured as in
`initialize_read_pio` (n64.py 60-82): `in_base = Pin(pico_pins_map[0])`
(GPIO 0), `in_shiftdir = SHIFT_LEFT`, side-set on GPIO 19.  With
SHIFT_LEFT the ISR is shifted left by `count` and the sampled field enters
in the least-significant bits; registers are 32-bit. -/
def pioStep (L : PinLevels) (s : PioState) : PioInstr → PioState
  | .pull_block =>
      match s.tx with
      | [] => s
      | v :: rest => { s with osr := v, tx := rest }
  | .mov_x_osr => { s with x := s.osr }
  | .nop side _ =>
      match side with
      | some b => { s with rdPin := b }
      | none => s
  | .in_pins count =>
      { s with isr := ((s.isr <<< count) ||| pio_pins_value 0 count L) % 2 ^ 32 }
  | .push => { s with rx := s.rx ++ [s.isr], isr := 0 }

/-- The `read_word_pio` program body (n64.py 31-54), one loop iteration:
wait for trigger, discard it, drive read-enable low (side 0), delay
(5 × `nop [4]`), sample 16 pins, push, drive read-enable high (side 1). -/
def read_word_pio : List PioInstr :=
  [ .pull_block,
    .mov_x_osr,
    .nop (some false) 0,
    .nop none 4, .nop none 4, .nop none 4, .nop none 4, .nop none 4,
    .in_pins 16,
    .push,
    .nop (some true) 0 ]

/-- Initial PIO state after `initialize_read_pio`: `sideset_init = OUT_HIGH`
(read-enable high), registers clear, one trigger value in the TX FIFO as
written by `sm_read.put(0)` in `read_word` (n64.py 167). -/
def pio_initial_state : PioState :=
  { osr := 0, isr := 0, x := 0, rdPin := true, rx := [], tx := [0] }

/-- The 16-bit word delivered to `sm_read.get()` by one pass of the PIO
program over a fixed pin-level assignment. -/
def read_word_hw (L : PinLevels) : Nat :=
  ((read_word_pio.foldl (pioStep L) pio_initial_state).rx).getD 0 0

/-! ## Bit-level helpers -/

/-- The bit written for index `i` by `write_word`:
`bit = (word >> i) & 1` (n64.py 154), driven as a pin level. -/
def bitOf (w i : Nat) : Bool := (w >>> i) &&& 1 == 1

/-- Accumulating a word from bits `f 0, …, f (n-1)` the way the source
loops do: `word |= bit << i`. -/
def wordOfBits (f : Nat → Bool) (n : Nat) : Nat :=
  (List.range n).foldl (fun w i => w ||| ((if f i then 1 else 0) <<< i)) 0

/-! ## GPIO / bus state model

The observable state of the dumper hardware: the SIO-driven level and the
direction of every GPIO, the contents of the two external address latches,
and a chronological log of software pin operations.  The external latches
are modelled after the glossary of the design: an ALE line's falling edge
(high → low, both lines are active-low) captures the current 16-bit bus
value.  ALE-high is GPIO 26, ALE-low GPIO 27, write-enable GPIO 20,
read-enable GPIO 19, reset GPIO 16 (n64.py 17-23). -/

/-- A software-visible pin operation, in program order. -/
inductive BusEvent where
  | pinWrite : Nat → Bool → BusEvent
  | dirSet : Nat → Bool → BusEvent
  | smActivate : BusEvent
deriving DecidableEq

structure BusState where
  level : Nat → Bool
  dirOut : Nat → Bool
  latchHigh : Nat
  latchLow : Nat
  trace : List BusEvent

/-- The 16-bit value present on bus lines AD0..AD15 (AD`i` is wired to GPIO
`pico_pins_map[i]`), as an external latch sees it. -/
def busWord (s : BusState) : Nat := read_word_from_address_pins s.level

/-- A software write of level `b` to GPIO `g` (`pin.high() / pin.low() /
pin.value(bit)`).  Logs the event; a falling edge on an ALE line captures
the bus value into the corresponding external latch. -/
def pinWrite (g : Nat) (b : Bool) (s : BusState) : BusState :=
  let s' := { s with level := Function.update s.level g b,
                     trace := s.trace ++ [BusEvent.pinWrite g b] }
  if g = 26 ∧ s.level 26 = true ∧ b = false then { s' with latchHigh := busWord s }
  else if g = 27 ∧ s.level 27 = true ∧ b = false then { s' with latchLow := busWord s }
  else s'

/-- A direction change, `pin.init(Pin.OUT)` / `pin.init(Pin.IN)`. -/
def dirSet (g : Nat) (out : Bool) (s : BusState) : BusState :=
  { s with dirOut := Function.update s.dirOut g out,
           trace := s.trace ++ [BusEvent.dirSet g out] }

/-- `set_pico_address_pins_out` (n64.py 112-115): every bus pin to output,
driven low. -/
def set_pico_address_pins_out (s : BusState) : BusState :=
  pico_pins_map.foldl (fun st p => pinWrite p false (dirSet p true st)) s

/-- `set_pico_address_pins_in` (n64.py 117-119): every bus pin to input. -/
def set_pico_address_pins_in (s : BusState) : BusState :=
  pico_pins_map.foldl (fun st p => dirSet p false st) s

/-- `write_word` (n64.py 152-155): drive bit `i` of `word` onto
`address_pins[i]` = GPIO `pico_pins_map[i]`. -/
def write_word (w : Nat) (s : BusState) : BusState :=
  (List.range 16).foldl
    (fun st i => pinWrite (pico_pins_map.getD i 0) (bitOf w i) st) s

/-- `set_address` (n64.py 121-143), step for step: bus pins to output, split
the address, drive WR/RD/aleL/aleH high, write the high word, drop ALE-high,
write the low word, drop ALE-low, bus pins back to input. -/
def set_address (address : Nat) (s : BusState) : BusState :=
  let s1 := set_pico_address_pins_out s
  let address_low := address &&& 0xFFFF
  let address_high := address >>> 16
  let s2 := pinWrite 26 true (pinWrite 27 true (pinWrite 19 true (pinWrite 20 true s1)))
  let s3 := write_word address_high s2
  let s4 := pinWrite 26 false s3
  let s5 := write_word address_low s4
  let s6 := pinWrite 27 false s5
  set_pico_address_pins_in s6

/-- `setup_cart` (n64.py 84-110): control pins to output, WR high, ALE-low
driven low, ALE-high high, settle, then release reset.  (The `read_pin.high()`
of the pre-PIO revision is commented out in the source.) -/
def setup_cart (s : BusState) : BusState :=
  let s1 := set_pico_address_pins_out s
  let s2 := dirSet 26 true (dirSet 27 true (dirSet 20 true (dirSet 16 true s1)))
  let s3 := pinWrite 20 true s2
  let s4 := pinWrite 27 false s3
  let s5 := pinWrite 26 true s4
  pinWrite 16 true s5

/-- `init_read_pio` models `initialize_read_pio` (n64.py 60-82): bus pins to
input, then the state machine is activated (claiming GPIO 19 for side-set). -/
def init_read_pio (s : BusState) : BusState :=
  let s1 := set_pico_address_pins_in s
  { s1 with trace := s1.trace ++ [BusEvent.smActivate] }

/-- The state just before the ALE-high falling edge inside
`set_address A s`. -/
def set_address_mid (A : Nat) (s : BusState) : BusState :=
  write_word (A >>> 16) (pinWrite 26 true (pinWrite 27 true (pinWrite 19 true
    (pinWrite 20 true (set_pico_address_pins_out s)))))

/-! ### The event trace of `set_address` -/

/-- The software pin operations of one `write_word w` call, in order. -/
def write_word_events (w : Nat) : List BusEvent :=
  (List.range 16).map (fun i => BusEvent.pinWrite (pico_pins_map.getD i 0) (bitOf w i))

/-- The operations of `set_pico_address_pins_out`. -/
def pins_out_events : List BusEvent :=
  pico_pins_map.flatMap (fun p => [BusEvent.dirSet p true, BusEvent.pinWrite p false])

/-- The operations of `set_pico_address_pins_in`. -/
def pins_in_events : List BusEvent :=
  pico_pins_map.map (fun p => BusEvent.dirSet p false)

/-- Chronological pin-operation log of one `set_address address` call: bus
pins to output, WR/RD/ALE-low/ALE-high driven high (inactive), the high
address half driven, ALE-high dropped (latching it), the low half driven,
ALE-low dropped (latching it), bus pins to input. -/
def set_address_events (address : Nat) : List BusEvent :=
  pins_out_events
    ++ [BusEvent.pinWrite 20 true, BusEvent.pinWrite 19 true,
        BusEvent.pinWrite 27 true, BusEvent.pinWrite 26 true]
    ++ write_word_events (address >>> 16) ++ [BusEvent.pinWrite 26 false]
    ++ write_word_events (address &&& 0xFFFF) ++ [BusEvent.pinWrite 27 false]
    ++ pins_in_events

/-- Power-on state used for the concrete runs: all lines low, all pins in
input mode, latches clear, empty log. -/
def bus_state0 : BusState :=
  { level := fun _ => false, dirOut := fun _ => false,
    latchHigh := 0, latchLow := 0, trace := [] }

/-! ## Word-to-byte serialization (`get_cart_id` and `read_cart` buffers) -/

/-- High byte then low byte per word — the serialization the spec claims. -/
def serialize_words (ws : List Nat) : List Nat :=
  ws.flatMap (fun w => [w >>> 8, w &&& 0xFF])

/-- The buffer-filling loop shared by `get_cart_id` (n64.py 181-186) and
`read_cart` (n64.py 263-268): for each word from `read_word()`,
`buffer[i] = word >> 8` (`high_byte`), `buffer[i+1] = word & 0xFF`
(`low_byte`), `i` advancing by 2 over a preallocated `bytearray`. -/
def fill_words : List Nat → Nat → List Nat → List Nat
  | [], _, buf => buf
  | w :: ws, i, buf => fill_words ws (i + 2) ((buf.set i (w >>> 8)).set (i + 1) (w &&& 0xFF))

/-- The 64-byte header buffer built by `get_cart_id` (n64.py 177-186) from
the stream `ws` of words the word-read engine returned. -/
def get_cart_id_buffer (ws : List Nat) : List Nat :=
  fill_words ws 0 (List.replicate 64 0)

/-- One 512-byte chunk buffer built by `read_cart` (n64.py 260-268). -/
def read_cart_chunk (ws : List Nat) : List Nat :=
  fill_words ws 0 (List.replicate 512 0)

/-! ## Checksum database lookup (`get_cart_size_from_db`, n64.py 205-244)

The database file is a list of text lines, each keeping its trailing
newline; Python's `readline()` yields `""` only at end of file. -/

def emptyStr : String := ""

def commaChar : Char := ','

/-- The whitespace set of Python's `str.strip()`. -/
def py_whitespace : List Char := [' ', '\t', '\n', '\x0b', '\x0c', '\r']

/-- Python `str.strip()`. -/
def pyStrip (s : String) : String :=
  String.mk (((s.toList.dropWhile py_whitespace.contains).reverse.dropWhile
    py_whitespace.contains).reverse)

/-- Python `str.split(sep)` for a one-character separator: split at every
occurrence, keeping empty fields. -/
def pySplitChar (sep : Char) : List Char → List (List Char)
  | [] => [[]]
  | c :: rest =>
      if c = sep then [] :: pySplitChar sep rest
      else
        match pySplitChar sep rest with
        | [] => [[c]]
        | g :: gs => (c :: g) :: gs

def pySplit (sep : Char) (s : String) : List String :=
  (pySplitChar sep s.toList).map String.mk

/-- Python `int(s)` on the strings the database format produces: optional
surrounding whitespace, optional sign, then a nonempty digit run;
anything else raises `ValueError` (modelled as `none`). -/
def pyInt (s : String) : Option Int :=
  let cs := (pyStrip s).toList
  let signDigits : Bool × List Char :=
    match cs with
    | [] => (false, [])
    | c :: rest =>
        if c = '-' then (true, rest)
        else if c = '+' then (false, rest)
        else (false, cs)
  if signDigits.2 ≠ [] ∧ signDigits.2.all Char.isDigit then
    let v : Nat := signDigits.2.foldl (fun a c => a * 10 + (c.toNat - 48)) 0
    some (if signDigits.1 then -(v : Int) else (v : Int))
  else none

/-- The per-record decision (n64.py 224-232): at least two comma fields,
`parts[0] == checksum_str`, and a size `int()` accepts — then that size;
otherwise nothing (continue scanning). -/
def record_size (checksum_str info_line : String) : Option Int :=
  if 2 ≤ (pySplit commaChar (pyStrip info_line)).length ∧
      (pySplit commaChar (pyStrip info_line)).getD 0 emptyStr = checksum_str then
    pyInt ((pySplit commaChar (pyStrip info_line)).getD 1 emptyStr)
  else none

/-- The record-scanning loop of `get_cart_size_from_db` (n64.py 209-236):
read a name line (`""` = EOF → break), an info line (`""` → break), skip
the separator line; on a record match return its size, otherwise continue
with the next record.  Returns `0` when the scan falls off the end.
(When the separator line is already EOF the next iteration's `readline`
returns `""` and breaks, hence the inlined `0`.) -/
def db_scan (checksum_str : String) : List String → Int
  | [] => 0
  | [_] => 0
  | name_line :: info_line :: rest2 =>
      if name_line = emptyStr then 0
      else if info_line = emptyStr then 0
      else
        Option.elim (record_size checksum_str info_line)
          (match rest2 with
            | [] => 0
            | _ :: rest3 => db_scan checksum_str rest3)
          (fun n => n)

/-- `get_cart_size_from_db` (n64.py 205-244).  `none` models the database
resource being absent or unreadable (`OSError` — caught and swallowed);
the result `0` is the "not found" outcome. -/
def get_cart_size_from_db (checksum_str : String) : Option (List String) → Int
  | none => 0
  | some lines => db_scan checksum_str lines

/-- Size resolution in `main` (n64.py 300-306): a positive database size
overrides the global default `cart_size = 12`; otherwise the default is
kept. -/
def resolve_cart_size (db_size : Int) : Int :=
  if db_size > 0 then db_size else default_cart_size

/-- An info line is malformed when it does not carry a checksum field plus
a parsable integer size: fewer than two comma-separated fields, or a size
field `int()` rejects. -/
def malformed_info (info_line : String) : Prop :=
  (pySplit commaChar (pyStrip info_line)).length < 2
    ∨ pyInt ((pySplit commaChar (pyStrip info_line)).getD 1 emptyStr) = none

/-! ## Serial dump session (spec §6)

The line-based handshake (steps 1, 2 and 4 of the serial session protocol)
is not present in `src/src/n64.py` — its `read_cart` only streams the raw
chunks — so the session is modelled from the spec. -/

def start_dump_line : String := "START_DUMP"

def dump_complete_line : String := "DUMP_COMPLETE"

def cart_info_tag : String := "CART_INFO:"

def comma_str : String := ","

def newline_str : String := "\x0a"

/-- One observable event on the serial link.  A `sendLine s` transmits the
text `s` followed by a newline (see `line_wire`); a `sendChunk` transmits
raw chunk bytes with no framing. -/
inductive SerialEvent where
  | sendLine : String → SerialEvent
  | recvLine : String → SerialEvent
  | sendChunk : List Nat → SerialEvent
deriving DecidableEq

/-- The bytes a line event puts on the wire. -/
def line_wire (s : String) : String := s ++ newline_str

/-- Modelled from the spec: step 2 of the serial session — "Device waits,
polling for an incoming line, until it receives the literal line
`START_DUMP`."  `none` means the line never arrives (the device polls
forever). -/
def poll_for_start : List String → Option (List SerialEvent)
  | [] => none
  | l :: rest =>
      if l = start_dump_line then some [SerialEvent.recvLine l]
      else (poll_for_start rest).map (fun t => SerialEvent.recvLine l :: t)

/-- Modelled from the spec: step 1 — `CART_INFO:<name>,<size_mb>`
(ASCII, comma-separated). -/
def cart_info_line (name : String) (size_mb : Nat) : String :=
  cart_info_tag ++ name ++ comma_str ++ toString size_mb

/-- Modelled from the spec: the full device-side session of §6 — send the
`CART_INFO` line, poll until `START_DUMP`, stream the chunks, send
`DUMP_COMPLETE`.  `incoming` is the sequence of lines arriving from the
host, `chunks` the chunk buffers the dump loop produces. -/
def dump_session (name : String) (size_mb : Nat) (incoming : List String)
    (chunks : List (List Nat)) : Option (List SerialEvent) :=
  (poll_for_start incoming).map (fun hs =>
    SerialEvent.sendLine (cart_info_line name size_mb)
      :: (hs ++ chunks.map SerialEvent.sendChunk
          ++ [SerialEvent.sendLine dump_complete_line]))

/-! ## ROM size detection (spec §4.4)

The mirror-probing size detector is not present in `src/src/n64.py`
(its `main` keeps the global default when the database lookup fails), so
the probe itself is modelled from the spec. -/

/-- Modelled from the spec: the ascending candidate capacities (MB). -/
def size_candidates : List Nat := [4, 8, 12, 16, 32, 64]

/-- The 16-byte sample read at `addr` through a bus-read oracle giving the
byte at each address. -/
def read16 (oracle : Nat → Nat) (addr : Nat) : List Nat :=
  (List.range 16).map (fun i => oracle (addr + i))

/-- Modelled from the spec: probe each candidate `c` smallest-first,
compare the 16 bytes at `rom_base_address + c * 1MB` with the reference
sample at the ROM base, return the first match, else the largest
candidate (64 MB). -/
def detect_size (oracle : Nat → Nat) : Nat :=
  match size_candidates.find? (fun c =>
      read16 oracle (rom_base_address + c * 1048576) == read16 oracle rom_base_address) with
  | some c => c
  | none => 64

/-! ## The dump sweep and the main control flow -/

/-- The chunk base addresses `read_cart` iterates (n64.py 256):
`range(rom_base_address, rom_base_address + size_mb*1024*1024, 512)`. -/
def read_cart_addresses (size_mb : Nat) : List Nat :=
  (List.range ((size_mb * 1024 * 1024 + 511) / 512)).map
    (fun k => rom_base_address + 512 * k)

/-- The software pin-operation log of the `main` control flow (n64.py
282-308) up to and including the first bus transaction of `get_cart_id`:
`initialize_read_pio()`, then `setup_cart()`, then
`set_address(rom_base_address)`. -/
def main_prefix : BusState :=
  set_address rom_base_address (setup_cart (init_read_pio bus_state0))

/-- The events strictly after the first state-machine activation. -/
def after_activate : List BusEvent → List BusEvent
  | [] => []
  | BusEvent.smActivate :: rest => rest
  | _ :: rest => after_activate rest

/-! ## Concrete inputs for the counterexamples and witnesses -/

/-- Level assignment with GPIO 15 high and every other line low. -/
def exPins : PinLevels := fun n => n == 15

/-- A bus-read oracle under which no candidate mirrors the ROM base:
byte value = bits 20+ of the address, so every 1 MB step changes it. -/
def mirror_oracle : Nat → Nat := fun a => (a >>> 20) % 256

/-- A bus-read oracle whose content repeats with an 8 MB period: the
second candidate (8 MB) is the first mirror match. -/
def oracle8 : Nat → Nat := fun a => (a >>> 20) % 8

def ex_cart_name : String := "ZELDA"

def ex_other_line : String := "PING"

def ex_incoming : List String := [ex_other_line, start_dump_line]

def ex_chunks : List (List Nat) := [[1, 2, 3, 4], [5, 6, 7, 8]]

def ex_junk_name : String := "JUNKREC\x0a"

def ex_junk_info : String := "NOCOMMA\x0a"

def ex_blank : String := "\x0a"

def ex_name : String := "THE LEGEND OF ZELDA\x0a"

def ex_info : String := "ABCDEF01,32,5\x0a"

def ex_checksum : String := "ABCDEF01"

/-- A database in which a malformed record precedes the matching record. -/
def ex_db : List String := [ex_junk_name, ex_junk_info, ex_blank, ex_name, ex_info, ex_blank]

/-- Candidate `c` mirrors the ROM base under the given oracle. -/
@[reducible] def mirrors_at (oracle : Nat → Nat) (c : Nat) : Prop :=
  read16 oracle (rom_base_address + c * 1048576) = read16 oracle rom_base_address

theorem wordOfBits_succ (f : Nat → Bool) (n : Nat) :
    wordOfBits f (n + 1) = wordOfBits f n ||| ((if f n then 1 else 0) <<< n) := by
  unfold wordOfBits
  rw [List.range_succ, List.foldl_append, List.foldl_cons, List.foldl_nil]

theorem wordOfBits_congr {f g : Nat → Bool} (n : Nat) (h : ∀ i, i < n → f i = g i) :
    wordOfBits f n = wordOfBits g n := by
  induction n with
  | zero => rfl
  | succ n ih =>
      rw [wordOfBits_succ, wordOfBits_succ, ih (fun i hi => h i (Nat.lt_succ_of_lt hi)),
        h n (Nat.lt_succ_self n)]

theorem or_two_pow_of_lt {a n : Nat} (h : a < 2 ^ n) : a ||| 2 ^ n = a + 2 ^ n := by
  apply Nat.eq_of_testBit_eq
  intro j
  rcases Nat.lt_trichotomy j n with hj | hj | hj
  · rw [Nat.testBit_or, Nat.add_comm a (2 ^ n), Nat.testBit_two_pow_add_gt hj,
      Nat.testBit_two_pow_of_ne (Nat.ne_of_gt hj), Bool.or_false]
  · subst hj
    rw [Nat.testBit_or, Nat.testBit_lt_two_pow h, Nat.add_comm a (2 ^ j),
      Nat.testBit_two_pow_add_eq, Nat.testBit_lt_two_pow h, Nat.testBit_two_pow_self]
    rfl
  · have h1 : a < 2 ^ j := Nat.lt_trans h (Nat.pow_lt_pow_right (by omega) hj)
    have h2 : a + 2 ^ n < 2 ^ j := by
      have : 2 ^ (n + 1) ≤ 2 ^ j := Nat.pow_le_pow_right (by omega) hj
      have := Nat.pow_succ 2 n
      omega
    rw [Nat.testBit_or, Nat.testBit_lt_two_pow h1, Nat.testBit_lt_two_pow h2,
      Nat.testBit_two_pow_of_ne (Nat.ne_of_lt hj), Bool.or_false]

theorem wordOfBits_lt (f : Nat → Bool) (n : Nat) : wordOfBits f n < 2 ^ n := by
  induction n with
  | zero => simp [wordOfBits]
  | succ n ih =>
      rw [wordOfBits_succ]
      by_cases h : f n
      · rw [h, if_pos rfl, Nat.one_shiftLeft, or_two_pow_of_lt ih, Nat.pow_succ]
        omega
      · rw [if_neg (by simp [h]), Nat.zero_shiftLeft, Nat.or_zero, Nat.pow_succ]
        have := Nat.two_pow_pos n
        omega

/-- Reassembling the bits of `w` low-to-high with `|=` recovers `w` modulo
`2^n` — the round-trip core shared by the read/write and latch proofs. -/
theorem wordOfBits_bitOf (w : Nat) : ∀ n, wordOfBits (bitOf w) n = w % 2 ^ n := by
  intro n
  induction n with
  | zero => simp [wordOfBits, Nat.mod_one]
  | succ n ih =>
      rw [wordOfBits_succ, ih, Nat.mod_pow_succ]
      have hlt : w % 2 ^ n < 2 ^ n := Nat.mod_lt _ (Nat.two_pow_pos n)
      rcases Nat.mod_two_eq_zero_or_one (w / 2 ^ n) with h | h
      · have hb : bitOf w n = false := by
          simp [bitOf, Nat.shiftRight_eq_div_pow, Nat.and_one_is_mod, h]
        rw [hb, if_neg (by simp), Nat.zero_shiftLeft, Nat.or_zero, h]
        omega
      · have hb : bitOf w n = true := by
          simp [bitOf, Nat.shiftRight_eq_div_pow, Nat.and_one_is_mod, h]
        rw [hb, if_pos rfl, Nat.one_shiftLeft, or_two_pow_of_lt hlt, h]
        omega

/-! ## Generic lemmas about folded `Function.update` writes -/

theorem foldl_update_apply_of_forall_ne (l : List Nat) (key : Nat → Nat) (val : Nat → Bool)
    (L : Nat → Bool) (p : Nat) (h : ∀ i ∈ l, key i ≠ p) :
    (l.foldl (fun F i => Function.update F (key i) (val i)) L) p = L p := by
  induction l generalizing L with
  | nil => rfl
  | cons a t ih =>
      rw [List.foldl_cons, ih _ (fun i hi => h i (List.mem_cons_of_mem a hi))]
      exact Function.update_noteq (Ne.symm (h a (List.mem_cons_self a t))) _ _

theorem foldl_update_apply_mem (l : List Nat) (key : Nat → Nat) (val : Nat → Bool)
    (L : Nat → Bool) (j : Nat) (hj : j ∈ l) (hnd : l.Nodup)
    (hinj : ∀ i ∈ l, key i = key j → i = j) :
    (l.foldl (fun F i => Function.update F (key i) (val i)) L) (key j) = val j := by
  induction l generalizing L with
  | nil => cases hj
  | cons a t ih =>
      rw [List.foldl_cons]
      rcases List.mem_cons.mp hj with rfl | hjt
      · have hnotin : j ∉ t := (List.nodup_cons.mp hnd).1
        rw [foldl_update_apply_of_forall_ne t key val _ (key j)
          (fun i hi hk => hnotin (hinj i (List.mem_cons_of_mem j hi) hk ▸ hi))]
        exact Function.update_same _ _ _
      · exact ih _ hjt (List.nodup_cons.mp hnd).2
          (fun i hi => hinj i (List.mem_cons_of_mem a hi))

/-! ### Projection lemmas -/

theorem pinWrite_level (g : Nat) (b : Bool) (s : BusState) :
    (pinWrite g b s).level = Function.update s.level g b := by
  unfold pinWrite
  split
  · rfl
  · split <;> rfl

theorem pinWrite_dirOut (g : Nat) (b : Bool) (s : BusState) :
    (pinWrite g b s).dirOut = s.dirOut := by
  unfold pinWrite
  split
  · rfl
  · split <;> rfl

theorem pinWrite_trace (g : Nat) (b : Bool) (s : BusState) :
    (pinWrite g b s).trace = s.trace ++ [BusEvent.pinWrite g b] := by
  unfold pinWrite
  split
  · rfl
  · split <;> rfl

theorem pinWrite_latchHigh_of_ne {g : Nat} (hg : g ≠ 26) (b : Bool) (s : BusState) :
    (pinWrite g b s).latchHigh = s.latchHigh := by
  unfold pinWrite
  rw [if_neg (fun hc => hg hc.1)]
  split <;> rfl

theorem pinWrite_latchLow_of_ne {g : Nat} (hg : g ≠ 27) (b : Bool) (s : BusState) :
    (pinWrite g b s).latchLow = s.latchLow := by
  unfold pinWrite
  split
  · rfl
  · rw [if_neg (fun hc => hg hc.1)]

theorem pinWrite_latchHigh_capture {s : BusState} (h : s.level 26 = true) :
    (pinWrite 26 false s).latchHigh = busWord s := by
  unfold pinWrite
  rw [if_pos ⟨rfl, h, rfl⟩]

theorem pinWrite_latchLow_capture {s : BusState} (h : s.level 27 = true) :
    (pinWrite 27 false s).latchLow = busWord s := by
  unfold pinWrite
  rw [if_neg (fun hc => by exact absurd hc.1 (by decide)), if_pos ⟨rfl, h, rfl⟩]

theorem dirSet_level (g : Nat) (o : Bool) (s : BusState) :
    (dirSet g o s).level = s.level := rfl

theorem dirSet_dirOut (g : Nat) (o : Bool) (s : BusState) :
    (dirSet g o s).dirOut = Function.update s.dirOut g o := rfl

theorem dirSet_latchHigh (g : Nat) (o : Bool) (s : BusState) :
    (dirSet g o s).latchHigh = s.latchHigh := rfl

theorem dirSet_latchLow (g : Nat) (o : Bool) (s : BusState) :
    (dirSet g o s).latchLow = s.latchLow := rfl

theorem dirSet_trace (g : Nat) (o : Bool) (s : BusState) :
    (dirSet g o s).trace = s.trace ++ [BusEvent.dirSet g o] := rfl

/-! ### Fold lemmas for `write_word` and the pin-mode sweeps -/

theorem foldl_pinWrite_level (l : List Nat) (key : Nat → Nat) (val : Nat → Bool) (s : BusState) :
    (l.foldl (fun st i => pinWrite (key i) (val i) st) s).level
      = l.foldl (fun F i => Function.update F (key i) (val i)) s.level := by
  induction l generalizing s with
  | nil => rfl
  | cons a t ih => rw [List.foldl_cons, List.foldl_cons, ih, pinWrite_level]

theorem foldl_pinWrite_dirOut (l : List Nat) (key : Nat → Nat) (val : Nat → Bool) (s : BusState) :
    (l.foldl (fun st i => pinWrite (key i) (val i) st) s).dirOut = s.dirOut := by
  induction l generalizing s with
  | nil => rfl
  | cons a t ih => rw [List.foldl_cons, ih, pinWrite_dirOut]

theorem foldl_pinWrite_latchHigh (l : List Nat) (key : Nat → Nat) (val : Nat → Bool)
    (s : BusState) (h : ∀ i ∈ l, key i ≠ 26) :
    (l.foldl (fun st i => pinWrite (key i) (val i) st) s).latchHigh = s.latchHigh := by
  induction l generalizing s with
  | nil => rfl
  | cons a t ih =>
      rw [List.foldl_cons, ih _ (fun i hi => h i (List.mem_cons_of_mem a hi)),
        pinWrite_latchHigh_of_ne (h a (List.mem_cons_self a t))]

theorem foldl_pinWrite_latchLow (l : List Nat) (key : Nat → Nat) (val : Nat → Bool)
    (s : BusState) (h : ∀ i ∈ l, key i ≠ 27) :
    (l.foldl (fun st i => pinWrite (key i) (val i) st) s).latchLow = s.latchLow := by
  induction l generalizing s with
  | nil => rfl
  | cons a t ih =>
      rw [List.foldl_cons, ih _ (fun i hi => h i (List.mem_cons_of_mem a hi)),
        pinWrite_latchLow_of_ne (h a (List.mem_cons_self a t))]

theorem foldl_pinWrite_trace (l : List Nat) (key : Nat → Nat) (val : Nat → Bool) (s : BusState) :
    (l.foldl (fun st i => pinWrite (key i) (val i) st) s).trace
      = s.trace ++ l.map (fun i => BusEvent.pinWrite (key i) (val i)) := by
  induction l generalizing s with
  | nil => simp
  | cons a t ih =>
      rw [List.foldl_cons, ih, pinWrite_trace, List.map_cons, List.append_cons,
        List.append_assoc]
      simp

theorem pico_pins_map_getD_inj :
    ∀ i ∈ List.range 16, ∀ j ∈ List.range 16,
      pico_pins_map.getD i 0 = pico_pins_map.getD j 0 → i = j := by decide

theorem write_word_level (w : Nat) (s : BusState) :
    (write_word w s).level = (List.range 16).foldl
      (fun F i => Function.update F (pico_pins_map.getD i 0) (bitOf w i)) s.level :=
  foldl_pinWrite_level (List.range 16) (fun i => pico_pins_map.getD i 0) (bitOf w) s

theorem write_word_dirOut (w : Nat) (s : BusState) : (write_word w s).dirOut = s.dirOut :=
  foldl_pinWrite_dirOut (List.range 16) (fun i => pico_pins_map.getD i 0) (bitOf w) s

theorem write_word_latchHigh (w : Nat) (s : BusState) :
    (write_word w s).latchHigh = s.latchHigh :=
  foldl_pinWrite_latchHigh (List.range 16) (fun i => pico_pins_map.getD i 0) (bitOf w) s
    (by decide)

theorem write_word_latchLow (w : Nat) (s : BusState) :
    (write_word w s).latchLow = s.latchLow :=
  foldl_pinWrite_latchLow (List.range 16) (fun i => pico_pins_map.getD i 0) (bitOf w) s
    (by decide)

theorem write_word_level_high (w : Nat) (s : BusState) {p : Nat} (hp : 16 ≤ p) :
    (write_word w s).level p = s.level p := by
  rw [write_word_level]
  exact foldl_update_apply_of_forall_ne _ _ _ _ p
    (fun i hi => by
      have : pico_pins_map.getD i 0 < 16 := by
        have h16 : i < 16 := List.mem_range.mp hi
        interval_cases i <;> decide
      omega)

/-- After `write_word w`, bus line AD`j` carries bit `j` of `w`. -/
theorem write_word_level_data (w : Nat) (s : BusState) {j : Nat} (hj : j < 16) :
    (write_word w s).level (pico_pins_map.getD j 0) = bitOf w j := by
  rw [write_word_level]
  exact foldl_update_apply_mem (List.range 16) (fun i => pico_pins_map.getD i 0) (bitOf w)
    s.level j (List.mem_range.mpr hj) (List.nodup_range 16)
    (fun i hi => pico_pins_map_getD_inj i hi j (List.mem_range.mpr hj))

/-- The bus value after `write_word w` is `w` truncated to 16 bits. -/
theorem busWord_write_word (w : Nat) (s : BusState) :
    busWord (write_word w s) = w % 2 ^ 16 := by
  have : busWord (write_word w s)
      = wordOfBits (fun i => (write_word w s).level (pico_pins_map.getD i 0)) 16 := rfl
  rw [this, wordOfBits_congr 16 (fun i hi => write_word_level_data w s hi), wordOfBits_bitOf]

theorem foldl_update_const_apply (l : List Nat) (c : Bool) (L : Nat → Bool) (p : Nat) :
    (l.foldl (fun F q => Function.update F q c) L) p = if p ∈ l then c else L p := by
  induction l generalizing L with
  | nil => simp
  | cons a t ih =>
      rw [List.foldl_cons, ih]
      by_cases hp : p ∈ t
      · simp [hp, List.mem_cons]
      · by_cases hpa : p = a
        · subst hpa
          simp [hp, Function.update_same, List.mem_cons]
        · simp [hp, hpa, Function.update_noteq hpa, List.mem_cons]

/-! Lemmas for the two pin-mode sweeps, generic in the pin list. -/

theorem foldl_outSweep_level (l : List Nat) (s : BusState) :
    (l.foldl (fun st p => pinWrite p false (dirSet p true st)) s).level
      = l.foldl (fun F q => Function.update F q false) s.level := by
  induction l generalizing s with
  | nil => rfl
  | cons a t ih => rw [List.foldl_cons, List.foldl_cons, ih, pinWrite_level, dirSet_level]

theorem foldl_outSweep_dirOut (l : List Nat) (s : BusState) :
    (l.foldl (fun st p => pinWrite p false (dirSet p true st)) s).dirOut
      = l.foldl (fun F q => Function.update F q true) s.dirOut := by
  induction l generalizing s with
  | nil => rfl
  | cons a t ih => rw [List.foldl_cons, List.foldl_cons, ih, pinWrite_dirOut, dirSet_dirOut]

theorem foldl_outSweep_latchHigh (l : List Nat) (s : BusState) (h : ∀ p ∈ l, p ≠ 26) :
    (l.foldl (fun st p => pinWrite p false (dirSet p true st)) s).latchHigh = s.latchHigh := by
  induction l generalizing s with
  | nil => rfl
  | cons a t ih =>
      rw [List.foldl_cons, ih _ (fun p hp => h p (List.mem_cons_of_mem a hp)),
        pinWrite_latchHigh_of_ne (h a (List.mem_cons_self a t)), dirSet_latchHigh]

theorem foldl_outSweep_latchLow (l : List Nat) (s : BusState) (h : ∀ p ∈ l, p ≠ 27) :
    (l.foldl (fun st p => pinWrite p false (dirSet p true st)) s).latchLow = s.latchLow := by
  induction l generalizing s with
  | nil => rfl
  | cons a t ih =>
      rw [List.foldl_cons, ih _ (fun p hp => h p (List.mem_cons_of_mem a hp)),
        pinWrite_latchLow_of_ne (h a (List.mem_cons_self a t)), dirSet_latchLow]

theorem foldl_outSweep_trace (l : List Nat) (s : BusState) :
    (l.foldl (fun st p => pinWrite p false (dirSet p true st)) s).trace
      = s.trace ++ l.flatMap (fun p => [BusEvent.dirSet p true, BusEvent.pinWrite p false]) := by
  induction l generalizing s with
  | nil => simp
  | cons a t ih =>
      rw [List.foldl_cons, ih, pinWrite_trace, dirSet_trace]
      simp

theorem foldl_inSweep_level (l : List Nat) (s : BusState) :
    (l.foldl (fun st p => dirSet p false st) s).level = s.level := by
  induction l generalizing s with
  | nil => rfl
  | cons a t ih => rw [List.foldl_cons, ih, dirSet_level]

theorem foldl_inSweep_dirOut (l : List Nat) (s : BusState) :
    (l.foldl (fun st p => dirSet p false st) s).dirOut
      = l.foldl (fun F q => Function.update F q false) s.dirOut := by
  induction l generalizing s with
  | nil => rfl
  | cons a t ih => rw [List.foldl_cons, List.foldl_cons, ih, dirSet_dirOut]

theorem foldl_inSweep_latchHigh (l : List Nat) (s : BusState) :
    (l.foldl (fun st p => dirSet p false st) s).latchHigh = s.latchHigh := by
  induction l generalizing s with
  | nil => rfl
  | cons a t ih => rw [List.foldl_cons, ih, dirSet_latchHigh]

theorem foldl_inSweep_latchLow (l : List Nat) (s : BusState) :
    (l.foldl (fun st p => dirSet p false st) s).latchLow = s.latchLow := by
  induction l generalizing s with
  | nil => rfl
  | cons a t ih => rw [List.foldl_cons, ih, dirSet_latchLow]

theorem foldl_inSweep_trace (l : List Nat) (s : BusState) :
    (l.foldl (fun st p => dirSet p false st) s).trace
      = s.trace ++ l.map (fun p => BusEvent.dirSet p false) := by
  induction l generalizing s with
  | nil => simp
  | cons a t ih =>
      rw [List.foldl_cons, ih, dirSet_trace]
      simp

/-! ### Exit state of `set_address` -/

theorem pico_pins_map_ne_26 : ∀ p ∈ pico_pins_map, p ≠ 26 := by decide

theorem pico_pins_map_ne_27 : ∀ p ∈ pico_pins_map, p ≠ 27 := by decide

theorem pinWrite_latchHigh_of_high (g : Nat) (s : BusState) :
    (pinWrite g true s).latchHigh = s.latchHigh := by
  unfold pinWrite
  rw [if_neg (fun hc => Bool.noConfusion hc.2.2)]
  split <;> rfl

theorem pinWrite_latchLow_of_high (g : Nat) (s : BusState) :
    (pinWrite g true s).latchLow = s.latchLow := by
  unfold pinWrite
  rw [if_neg (fun hc => Bool.noConfusion hc.2.2)]
  rw [if_neg (fun hc => Bool.noConfusion hc.2.2)]

theorem set_address_mid_level_26 (A : Nat) (s : BusState) :
    (set_address_mid A s).level 26 = true := by
  unfold set_address_mid
  rw [write_word_level_high _ _ (by omega), pinWrite_level, Function.update_same]

theorem set_address_mid_level_27 (A : Nat) (s : BusState) :
    (set_address_mid A s).level 27 = true := by
  unfold set_address_mid
  rw [write_word_level_high _ _ (by omega), pinWrite_level,
    Function.update_noteq (by decide), pinWrite_level, Function.update_same]

theorem set_address_eq (A : Nat) (s : BusState) :
    set_address A s = set_pico_address_pins_in (pinWrite 27 false
      (write_word (A &&& 0xFFFF) (pinWrite 26 false (set_address_mid A s)))) := rfl

theorem set_address_latchHigh (A : Nat) (s : BusState) :
    (set_address A s).latchHigh = (A >>> 16) % 2 ^ 16 := by
  rw [set_address_eq]
  unfold set_pico_address_pins_in
  rw [foldl_inSweep_latchHigh, pinWrite_latchHigh_of_ne (by decide), write_word_latchHigh,
    pinWrite_latchHigh_capture (set_address_mid_level_26 A s)]
  unfold set_address_mid
  rw [busWord_write_word]

theorem set_address_latchLow (A : Nat) (s : BusState) :
    (set_address A s).latchLow = (A &&& 0xFFFF) % 2 ^ 16 := by
  rw [set_address_eq]
  unfold set_pico_address_pins_in
  have h27 : (write_word (A &&& 0xFFFF) (pinWrite 26 false (set_address_mid A s))).level 27
      = true := by
    rw [write_word_level_high _ _ (by omega), pinWrite_level,
      Function.update_noteq (by decide)]
    exact set_address_mid_level_27 A s
  rw [foldl_inSweep_latchLow, pinWrite_latchLow_capture h27, busWord_write_word]

theorem set_address_level_26 (A : Nat) (s : BusState) :
    (set_address A s).level 26 = false := by
  rw [set_address_eq]
  unfold set_pico_address_pins_in
  rw [foldl_inSweep_level, pinWrite_level, Function.update_noteq (by decide),
    write_word_level_high _ _ (by omega), pinWrite_level, Function.update_same]

theorem set_address_level_27 (A : Nat) (s : BusState) :
    (set_address A s).level 27 = false := by
  rw [set_address_eq]
  unfold set_pico_address_pins_in
  rw [foldl_inSweep_level, pinWrite_level, Function.update_same]

theorem set_address_dirOut (A : Nat) (s : BusState) :
    ∀ p ∈ pico_pins_map, (set_address A s).dirOut p = false := by
  intro p hp
  rw [set_address_eq]
  unfold set_pico_address_pins_in
  rw [foldl_inSweep_dirOut, foldl_update_const_apply, if_pos hp]

theorem write_word_trace (w : Nat) (s : BusState) :
    (write_word w s).trace = s.trace ++ write_word_events w :=
  foldl_pinWrite_trace (List.range 16) (fun i => pico_pins_map.getD i 0) (bitOf w) s

theorem set_address_trace_eq (A : Nat) (s : BusState) :
    (set_address A s).trace = s.trace ++ set_address_events A := by
  rw [set_address_eq]
  unfold set_pico_address_pins_in set_address_mid set_pico_address_pins_out
  rw [foldl_inSweep_trace, pinWrite_trace, write_word_trace, pinWrite_trace,
    write_word_trace, pinWrite_trace, pinWrite_trace, pinWrite_trace, pinWrite_trace,
    foldl_outSweep_trace]
  simp [set_address_events, pins_out_events, pins_in_events, List.append_assoc]

theorem fill_words_append (ws : List Nat) :
    ∀ (pre post : List Nat), 2 * ws.length ≤ post.length →
      fill_words ws pre.length (pre ++ post)
        = pre ++ serialize_words ws ++ post.drop (2 * ws.length) := by
  induction ws with
  | nil =>
      intro pre post _
      simp [fill_words, serialize_words]
  | cons w ws ih =>
      intro pre post h
      match post with
      | [] => simp at h
      | [p0] => simp at h; omega
      | p0 :: p1 :: rest =>
          have hset1 : (pre ++ p0 :: p1 :: rest).set pre.length (w >>> 8)
              = pre ++ (w >>> 8) :: p1 :: rest := by
            rw [List.set_append_right _ _ (Nat.le_refl _), Nat.sub_self, List.set_cons_zero]
          have hset2 : (pre ++ (w >>> 8) :: p1 :: rest).set (pre.length + 1) (w &&& 0xFF)
              = (pre ++ [w >>> 8, w &&& 0xFF]) ++ rest := by
            rw [List.set_append_right _ _ (Nat.le_add_right _ _), Nat.add_sub_cancel_left,
              List.set_cons_succ, List.set_cons_zero]
            simp
          have hlen : pre.length + 2 = (pre ++ [w >>> 8, w &&& 0xFF]).length := by
            simp
          have hrest : 2 * ws.length ≤ rest.length := by
            simp at h
            omega
          rw [fill_words, hset1, hset2, hlen, ih _ rest hrest]
          simp [serialize_words, Nat.mul_add, List.append_assoc]

theorem get_cart_id_buffer_eq (ws : List Nat) (h : ws.length = 32) :
    get_cart_id_buffer ws = serialize_words ws := by
  have h0 : fill_words ws (List.length ([] : List Nat)) ([] ++ List.replicate 64 (0 : Nat))
      = [] ++ serialize_words ws ++ (List.replicate 64 (0 : Nat)).drop (2 * ws.length) :=
    fill_words_append ws [] (List.replicate 64 0) (by simp [h])
  simp [h, List.drop_replicate] at h0
  simpa [get_cart_id_buffer] using h0

theorem read_cart_chunk_eq (ws : List Nat) (h : ws.length = 256) :
    read_cart_chunk ws = serialize_words ws := by
  have h0 : fill_words ws (List.length ([] : List Nat)) ([] ++ List.replicate 512 (0 : Nat))
      = [] ++ serialize_words ws ++ (List.replicate 512 (0 : Nat)).drop (2 * ws.length) :=
    fill_words_append ws [] (List.replicate 512 0) (by simp [h])
  simp [h, List.drop_replicate] at h0
  simpa [read_cart_chunk] using h0

/-! ## Claim theorems -/

/-- **C1.** The claim states that for every assignment of levels to the 16
data lines the software-polled word (bit `i` = line `i` in `pico_pins_map`
order) equals the word the PIO micro-program samples.  It is false: with
only GPIO 15 high the software strategy returns `0x0100` (GPIO 15 is
`address_pins[8]`) while the PIO `in pins, 16` from `in_base = GPIO 0`
returns `0x8000` — the PIO samples GPIOs 8-15 in natural order, not in the
reversed `pico_pins_map` order the software (and `write_word`) use. -/
theorem claim1_read_strategies_diverge :
    read_word_from_address_pins exPins = 0x0100
    ∧ read_word_hw exPins = 0x8000
    ∧ read_word_from_address_pins exPins ≠ read_word_hw exPins :=
  ⟨by decide, by decide, by decide⟩

/-- **C2 (counterexample).** The claim states that both address-latch lines
are back at their inactive (high) level when `set_address` returns.  False:
after `set_address 0` from the power-on state, ALE-high (GPIO 26) and
ALE-low (GPIO 27) are both low. -/
theorem claim2_counterexample :
    ¬ ((set_address 0 bus_state0).level 26 = true
        ∧ (set_address 0 bus_state0).level 27 = true) := by
  intro h
  have h26 := set_address_level_26 0 bus_state0
  rw [h.1] at h26
  exact Bool.noConfusion h26

/-- **C2 (amended).** For every address `A` and prior state, `set_address A`
appends exactly the event sequence `set_address_events A`: it first drives
both latch lines to their inactive level (high), drives the high address
half and only then pulls ALE-high active (low), drives the low half and
pulls ALE-low active (low); the latch lines are still active (low) when it
returns, and every one of the 16 bus lines is left in input mode. -/
theorem claim2_set_address_latch_pulse (A : Nat) (s : BusState) :
    (set_address A s).trace = s.trace ++ set_address_events A
    ∧ (set_address A s).level 26 = false
    ∧ (set_address A s).level 27 = false
    ∧ ∀ p ∈ pico_pins_map, (set_address A s).dirOut p = false :=
  ⟨set_address_trace_eq A s, set_address_level_26 A s, set_address_level_27 A s,
    set_address_dirOut A s⟩

/-- Witness for the amended C2 at the ROM base address. -/
theorem claim2_witness :
    (set_address rom_base_address bus_state0).trace
        = bus_state0.trace ++ set_address_events rom_base_address
    ∧ (set_address rom_base_address bus_state0).level 26 = false
    ∧ (set_address rom_base_address bus_state0).level 27 = false
    ∧ (set_address rom_base_address bus_state0).dirOut 15 = false :=
  ⟨(claim2_set_address_latch_pulse rom_base_address bus_state0).1,
    (claim2_set_address_latch_pulse rom_base_address bus_state0).2.1,
    (claim2_set_address_latch_pulse rom_base_address bus_state0).2.2.1,
    (claim2_set_address_latch_pulse rom_base_address bus_state0).2.2.2 15 (by decide)⟩

/-- **C3.** For every 32-bit address `A`, `set_address A` leaves
`A >> 16` in the external high-order latch and `A & 0xFFFF` in the
low-order latch, from any prior bus state. -/
theorem claim3_latched_halves (A : Nat) (hA : A < 2 ^ 32) (s : BusState) :
    (set_address A s).latchHigh = A >>> 16
    ∧ (set_address A s).latchLow = A &&& 0xFFFF := by
  constructor
  · rw [set_address_latchHigh]
    apply Nat.mod_eq_of_lt
    rw [Nat.shiftRight_eq_div_pow]
    exact Nat.div_lt_of_lt_mul (by norm_num at hA ⊢; omega)
  · rw [set_address_latchLow]
    exact Nat.mod_eq_of_lt (Nat.lt_of_le_of_lt Nat.and_le_right (by norm_num))

/-- Witness for C3 at `A = 0x12345678`. -/
theorem claim3_witness :
    (0x12345678 : Nat) < 2 ^ 32
    ∧ (set_address 0x12345678 bus_state0).latchHigh = 0x12345678 >>> 16
    ∧ (set_address 0x12345678 bus_state0).latchLow = 0x12345678 &&& 0xFFFF :=
  ⟨by norm_num, (claim3_latched_halves 0x12345678 (by norm_num) bus_state0).1,
    (claim3_latched_halves 0x12345678 (by norm_num) bus_state0).2⟩

/-- **C4.** Both word-to-byte serializations — the 64-byte header buffer of
`get_cart_id` and the 512-byte chunk buffer of `read_cart` — equal
`[hi w0, lo w0, hi w1, lo w1, …]` with `hi w = w >> 8` and
`lo w = w & 0xFF`, for every word stream of the right length. -/
theorem claim4_serialization_order :
    (∀ ws : List Nat, ws.length = 32 → get_cart_id_buffer ws = serialize_words ws)
    ∧ (∀ ws : List Nat, ws.length = 256 → read_cart_chunk ws = serialize_words ws) :=
  ⟨get_cart_id_buffer_eq, read_cart_chunk_eq⟩

/-- Witness for C4 on concrete word streams. -/
theorem claim4_witness :
    get_cart_id_buffer (List.replicate 32 0xABCD)
        = serialize_words (List.replicate 32 0xABCD)
    ∧ read_cart_chunk (List.replicate 256 0x1234)
        = serialize_words (List.replicate 256 0x1234) :=
  ⟨claim4_serialization_order.1 _ (by simp), claim4_serialization_order.2 _ (by simp)⟩

/-- **C10.** Writing a 16-bit word onto the bus lines with `write_word` and
sampling them back with `read_word_from_address_pins` returns the word:
both use the `pico_pins_map` bit-to-pin order, so the read is a left
inverse of the write. -/
theorem claim10_read_write_roundtrip (w : Nat) (hw : w < 2 ^ 16) (s : BusState) :
    read_word_from_address_pins (write_word w s).level = w := by
  have h : read_word_from_address_pins (write_word w s).level
      = busWord (write_word w s) := rfl
  rw [h, busWord_write_word, Nat.mod_eq_of_lt hw]

/-- Witness for C10 at `w = 0xBEEF`. -/
theorem claim10_witness :
    (0xBEEF : Nat) < 2 ^ 16
    ∧ read_word_from_address_pins (write_word 0xBEEF bus_state0).level = 0xBEEF :=
  ⟨by norm_num, claim10_read_write_roundtrip 0xBEEF (by norm_num) bus_state0⟩

/-- Polling consumes non-`START_DUMP` lines and ends on the first
`START_DUMP`. -/
theorem poll_for_start_spec (incoming : List String) (h : start_dump_line ∈ incoming) :
    ∃ pre, poll_for_start incoming = some (pre ++ [SerialEvent.recvLine start_dump_line])
      ∧ ∀ e ∈ pre, ∃ l, e = SerialEvent.recvLine l ∧ l ≠ start_dump_line := by
  induction incoming with
  | nil => cases h
  | cons a rest ih =>
      by_cases ha : a = start_dump_line
      · subst ha
        exact ⟨[], by simp [poll_for_start], by simp⟩
      · have h' : start_dump_line ∈ rest := by
          rcases List.mem_cons.mp h with h0 | h0
          · exact absurd h0.symm ha
          · exact h0
        obtain ⟨pre, h1, h2⟩ := ih h'
        refine ⟨SerialEvent.recvLine a :: pre, ?_, ?_⟩
        · simp [poll_for_start, ha, h1]
        · intro e he
          rcases List.mem_cons.mp he with rfl | he'
          · exact ⟨a, rfl, ha⟩
          · exact h2 e he'

/-- **C5.** Whenever the host eventually sends `START_DUMP`, the session
trace is: the `CART_INFO:<name>,<size_mb>` line first, then only received
non-`START_DUMP` lines up to the received `START_DUMP` line, then all ROM
chunks, and the `DUMP_COMPLETE` line last (each sent line goes on the wire
with a trailing newline, `line_wire`). -/
theorem claim5_session_protocol (name : String) (size_mb : Nat) (incoming : List String)
    (chunks : List (List Nat)) (h : start_dump_line ∈ incoming) :
    ∃ pre : List SerialEvent,
      dump_session name size_mb incoming chunks
          = some (SerialEvent.sendLine (cart_info_line name size_mb)
              :: (pre ++ [SerialEvent.recvLine start_dump_line]
                  ++ chunks.map SerialEvent.sendChunk
                  ++ [SerialEvent.sendLine dump_complete_line]))
        ∧ (∀ e ∈ pre, ∃ l, e = SerialEvent.recvLine l ∧ l ≠ start_dump_line)
        ∧ line_wire dump_complete_line = dump_complete_line ++ newline_str := by
  obtain ⟨pre, h1, h2⟩ := poll_for_start_spec incoming h
  refine ⟨pre, ?_, h2, rfl⟩
  rw [dump_session, h1, Option.map_some']
  try simp [List.append_assoc]

/-- Witness for C5 on a concrete session. -/
theorem claim5_witness :
    ∃ pre : List SerialEvent,
      dump_session ex_cart_name 32 ex_incoming ex_chunks
          = some (SerialEvent.sendLine (cart_info_line ex_cart_name 32)
              :: (pre ++ [SerialEvent.recvLine start_dump_line]
                  ++ ex_chunks.map SerialEvent.sendChunk
                  ++ [SerialEvent.sendLine dump_complete_line]))
        ∧ (∀ e ∈ pre, ∃ l, e = SerialEvent.recvLine l ∧ l ≠ start_dump_line)
        ∧ line_wire dump_complete_line = dump_complete_line ++ newline_str :=
  claim5_session_protocol ex_cart_name 32 ex_incoming ex_chunks (by decide)

/-- `find?` on a strictly ascending list returns the stated element when it
matches and everything smaller fails. -/
theorem find?_first {p : Nat → Bool} : ∀ (l : List Nat) (c : Nat),
    c ∈ l → p c = true → (∀ d ∈ l, d < c → p d = false) →
    List.Pairwise (· < ·) l → l.find? p = some c
  | [], c, hc, _, _, _ => absurd hc (List.not_mem_nil c)
  | a :: t, c, hc, hpc, hsm, hsort => by
      rcases List.mem_cons.mp hc with rfl | hct
      · rw [List.find?_cons_of_pos _ hpc]
      · have hac : a < c := (List.pairwise_cons.mp hsort).1 c hct
        have hpa : p a = false := hsm a (List.mem_cons_self a t) hac
        rw [List.find?_cons_of_neg _ (by simp [hpa])]
        exact find?_first t c hct hpc (fun d hd => hsm d (List.mem_cons_of_mem a hd))
          (List.pairwise_cons.mp hsort).2

/-- **C6 (amended).** The probe returns the first (smallest, the candidate
list being strictly ascending) candidate whose 16-byte mirror sample equals
the reference, and the largest candidate 64 when none matches; but in the
source's `main` a failed database lookup falls back to the fixed default
`cart_size = 12`, not to a probe result. -/
theorem claim6_size_probe_amended :
    (∀ (oracle : Nat → Nat) (c : Nat), c ∈ size_candidates → mirrors_at oracle c →
        (∀ d ∈ size_candidates, d < c → ¬ mirrors_at oracle d) →
        detect_size oracle = c)
    ∧ (∀ oracle : Nat → Nat, (∀ c ∈ size_candidates, ¬ mirrors_at oracle c) →
        detect_size oracle = 64)
    ∧ (∀ db_size : Int, db_size ≤ 0 → resolve_cart_size db_size = default_cart_size) := by
  refine ⟨?_, ?_, ?_⟩
  · intro oracle c hc hm hfirst
    unfold detect_size
    rw [find?_first size_candidates c hc (by simpa [mirrors_at] using hm)
      (fun d hd hdc => by simpa [mirrors_at] using hfirst d hd hdc) (by decide)]
  · intro oracle hnone
    unfold detect_size
    rw [List.find?_eq_none.mpr (fun c hc => by simpa [mirrors_at] using hnone c hc)]
  · intro db_size hdb
    unfold resolve_cart_size
    rw [if_neg (by omega)]

/-- **C6 (counterexample).** Under an oracle that mirrors at no candidate
the probe yields 64 MB, yet when the database lookup yields no match
(here: missing database), `main` uses the fixed default 12 MB — the probe
result is not used. -/
theorem claim6_counterexample :
    get_cart_size_from_db ex_checksum none = 0
    ∧ detect_size mirror_oracle = 64
    ∧ resolve_cart_size (get_cart_size_from_db ex_checksum none) = 12
    ∧ resolve_cart_size (get_cart_size_from_db ex_checksum none) ≠ 64 :=
  ⟨rfl, by decide, by decide, by decide⟩

/-- Witness for C6: an oracle that first mirrors at the second candidate
(8 MB) is detected as 8 MB, and a non-positive lookup keeps the default. -/
theorem claim6_witness :
    detect_size oracle8 = 8 ∧ resolve_cart_size 0 = default_cart_size :=
  ⟨claim6_size_probe_amended.1 oracle8 8 (by decide) (by decide) (by decide),
    claim6_size_probe_amended.2.2 0 (by decide)⟩

/-- **C7.** A 3-line record whose info line is malformed (fewer than two
comma fields, or an unparsable size) is skipped and scanning continues:
dropping such a record leaves the scan result unchanged, and on the
concrete database with a malformed record ahead of
`THE LEGEND OF ZELDA / ABCDEF01,32,5 / blank`, the query `ABCDEF01`
returns 32. -/
theorem claim7_malformed_record_skipped :
    (∀ (c name info blank : String) (rest : List String),
        name ≠ emptyStr → info ≠ emptyStr → malformed_info info →
        db_scan c (name :: info :: blank :: rest) = db_scan c rest)
    ∧ db_scan ex_checksum ex_db = 32 := by
  constructor
  · intro c name info blank rest hn hi hm
    have hmn : record_size c info = none := by
      unfold record_size
      rcases hm with h | h
      · exact if_neg (fun hc => absurd hc.1 (by omega))
      · by_cases hc : 2 ≤ (pySplit commaChar (pyStrip info)).length ∧
            (pySplit commaChar (pyStrip info)).getD 0 emptyStr = c
        · rw [if_pos hc, h]
        · exact if_neg hc
    have hunf : db_scan c (name :: info :: blank :: rest)
        = if name = emptyStr then 0
          else if info = emptyStr then 0
          else Option.elim (record_size c info) (db_scan c rest) (fun n => n) := rfl
    rw [hunf, if_neg hn, if_neg hi, hmn]
    rfl
  · decide

/-- Witness for C7: skipping the malformed record of the concrete database
leaves the lookup result unchanged. -/
theorem claim7_witness :
    db_scan ex_checksum (ex_junk_name :: ex_junk_info :: ex_blank
        :: [ex_name, ex_info, ex_blank])
      = db_scan ex_checksum [ex_name, ex_info, ex_blank] :=
  claim7_malformed_record_skipped.1 ex_checksum ex_junk_name ex_junk_info ex_blank
    [ex_name, ex_info, ex_blank] (by decide) (by decide) (Or.inl (by decide))

/-- A scan over lines none of which carries the queried checksum as its
first comma field falls off the end with 0. -/
theorem db_scan_not_found (c : String) : ∀ (lines : List String),
    (∀ l ∈ lines, (pySplit commaChar (pyStrip l)).getD 0 emptyStr ≠ c) →
    db_scan c lines = 0
  | [], _ => rfl
  | [_], _ => rfl
  | name :: info :: rest2, h => by
      have hrec : record_size c info = none := by
        unfold record_size
        exact if_neg (fun hc => h info (by simp) hc.2)
      rcases rest2 with _ | ⟨b, rest3⟩
      · have hunf : db_scan c [name, info]
            = if name = emptyStr then 0
              else if info = emptyStr then 0
              else Option.elim (record_size c info) 0 (fun n => n) := rfl
        rw [hunf, hrec]
        by_cases hn : name = emptyStr
        · rw [if_pos hn]
        · rw [if_neg hn]
          by_cases hi : info = emptyStr
          · rw [if_pos hi]
          · rw [if_neg hi]
            rfl
      · have hunf : db_scan c (name :: info :: b :: rest3)
            = if name = emptyStr then 0
              else if info = emptyStr then 0
              else Option.elim (record_size c info) (db_scan c rest3) (fun n => n) := rfl
        rw [hunf, hrec]
        have htail : db_scan c rest3 = 0 :=
          db_scan_not_found c rest3 (fun l hl => h l (by simp [hl]))
        by_cases hn : name = emptyStr
        · rw [if_pos hn]
        · rw [if_neg hn]
          by_cases hi : info = emptyStr
          · rw [if_pos hi]
          · rw [if_neg hi]
            exact htail

/-- **C8.** A missing database resource and an absent checksum both yield
the non-fatal "not found" result 0; `main` then keeps the default size
12 MB and the dump sweep proceeds over the full 12 MB address range
(24576 chunks of 512 bytes). -/
theorem claim8_lookup_never_fatal (c : String) (lines : List String)
    (habsent : ∀ l ∈ lines, (pySplit commaChar (pyStrip l)).getD 0 emptyStr ≠ c) :
    get_cart_size_from_db c none = 0
    ∧ get_cart_size_from_db c (some lines) = 0
    ∧ resolve_cart_size (get_cart_size_from_db c none) = default_cart_size
    ∧ resolve_cart_size (get_cart_size_from_db c (some lines)) = default_cart_size
    ∧ (read_cart_addresses (Int.toNat default_cart_size)).length = 24576 := by
  have h0 : get_cart_size_from_db c (some lines) = 0 := db_scan_not_found c lines habsent
  refine ⟨rfl, h0, rfl, ?_, ?_⟩
  · rw [h0]
    rfl
  · simp [read_cart_addresses, default_cart_size]

/-- Witness for C8 on a concrete database without the queried checksum. -/
theorem claim8_witness :
    get_cart_size_from_db ex_checksum none = 0
    ∧ get_cart_size_from_db ex_checksum (some [ex_junk_name, ex_junk_info, ex_blank]) = 0
    ∧ resolve_cart_size (get_cart_size_from_db ex_checksum none) = default_cart_size
    ∧ resolve_cart_size
        (get_cart_size_from_db ex_checksum (some [ex_junk_name, ex_junk_info, ex_blank]))
        = default_cart_size
    ∧ (read_cart_addresses (Int.toNat default_cart_size)).length = 24576 :=
  claim8_lookup_never_fatal ex_checksum [ex_junk_name, ex_junk_info, ex_blank] (by decide)

/-- **C9.** The claim states that after `initialize_read_pio` activates the
state machine no software step writes the read-enable line (GPIO 19).
False: every `set_address` call logs a software `read_pin.high()` write
(n64.py 131), and in `main`'s own sequence — `initialize_read_pio()`,
`setup_cart()`, then `get_cart_id`'s `set_address(rom_base_address)` — a
software write of GPIO 19 appears strictly after the activation event. -/
theorem claim9_software_toggles_read_enable :
    (∀ (A : Nat) (s : BusState), BusEvent.pinWrite 19 true ∈ (set_address A s).trace)
    ∧ BusEvent.pinWrite 19 true ∈ after_activate main_prefix.trace := by
  constructor
  · intro A s
    rw [set_address_trace_eq]
    refine List.mem_append.mpr (Or.inr ?_)
    simp [set_address_events]
  · decide

end N64
